import Mathlib

/-!
Verification of the low-level OPC UA binary client
(`src/opcua/client/async_ua_client.py`): a shallow embedding of
`UASocketProtocol` (request multiplexer) and `UaClient` (service façade),
with theorems checking the natural-language specification against the code.

Conventions of the embedding:
* Python's `dict` keyed by integers is an association list whose operations
  keep at most one entry per key (only the key → value mapping is relied on,
  never entry order).
* Opaque binary payloads (encoded requests, response bodies) are `Nat` tokens.
* External calls that can fail (`struct_to_binary`, the arrival of a response)
  are parameters of the embedded function: the embedding receives the outcome
  of the call, exactly as the surrounding code would observe it.
* A Python `raise` is an `Except.error`; state mutated before the raise stays
  mutated, as in the source.
-/

/-- State of an `asyncio.Future` held in the pending-callback map. -/
inductive FutState
  | pending
  | done (body : Nat)
  | cancelled
deriving DecidableEq, Repr

/-- Request header built by `_create_request_header` (lines 136-142); the
fields the client fills: `AuthenticationToken`, `RequestHandle`, `TimeoutHint`.
The authentication token (a `ua.NodeId`) is modelled as a `Nat` tag,
`0` standing for the empty `ua.NodeId()` of the constructor. -/
structure RequestHeader where
  AuthenticationToken : Nat
  RequestHandle : Nat
  TimeoutHint : Nat
deriving DecidableEq, Repr

/-- A message handed to `transport.write`: either a secure-conversation message
carrying the request id, the request header it was built with and the encoded
body (line 90-91), or the Hello message of `send_hello` (lines 155-156). -/
inductive SentMsg
  | secureMsg (request_id : Nat) (hdr : RequestHeader) (binreq : Nat)
  | helloMsg
deriving DecidableEq, Repr

/-- Mutable state of `UASocketProtocol` (constructor, lines 20-32), restricted
to the fields the claims concern: `self.timeout` (the constructor argument used
as the local wait deadline), `self.authentication_token`, `self._request_id`,
`self._request_handle`, `self._callbackmap`, plus the log of everything written
to the transport. -/
structure UASocketProtocol where
  timeout : Nat
  authentication_token : Nat
  request_id : Nat
  request_handle : Nat
  callbackmap : List (Nat × FutState)
  sent : List SentMsg
deriving DecidableEq, Repr

/-- `UASocketProtocol.__init__(timeout)`: token is the empty node id, both
counters start at 0, the callback map is empty, nothing sent yet. -/
def initProtocol (timeout : Nat) : UASocketProtocol :=
  { timeout := timeout
    authentication_token := 0
    request_id := 0
    request_handle := 0
    callbackmap := []
    sent := [] }

/-- Keys of a Python dict modelled as an association list. -/
def keysOf (m : List (Nat × FutState)) : List Nat := m.map Prod.fst

/-- `del d[k]` / the removal part of `d.pop(k)`: drop the entry with key `k`. -/
def dictRemove (m : List (Nat × FutState)) (k : Nat) : List (Nat × FutState) :=
  m.filter (fun p => p.1 ≠ k)

/-- `d[k] = v`: dict assignment; replaces any existing entry for `k`. -/
def dictInsert (m : List (Nat × FutState)) (k : Nat) (v : FutState) :
    List (Nat × FutState) :=
  dictRemove m k ++ [(k, v)]

/-- `d.get(k)` / the lookup part of `d.pop(k, None)`. -/
def dictLookup (m : List (Nat × FutState)) (k : Nat) : Option FutState :=
  (m.find? (fun p => p.1 = k)).map Prod.snd

/-- The one exception the embedded `_send_request` can surface: the bare
`except:` branch around `struct_to_binary(request)` (lines 78-84). -/
inductive SendErr
  | encodeFailed
deriving DecidableEq, Repr

/-- `_create_request_header(timeout)` (lines 136-142): increments
`self._request_handle`, builds a header carrying the stored authentication
token, the new handle and the `timeout` argument as `TimeoutHint`.
Returns the updated state and the header. -/
def _create_request_header (st : UASocketProtocol) (timeout : Nat) :
    UASocketProtocol × RequestHeader :=
  ({ st with request_handle := st.request_handle + 1 },
   { AuthenticationToken := st.authentication_token
     RequestHandle := st.request_handle + 1
     TimeoutHint := timeout })

/-- `_send_request(request, callback, timeout, message_type)` (lines 70-92).
`encodeResult` is the outcome of the external `struct_to_binary(request)`
call: `some binreq` on success, `none` when it raises. On encode failure the
handle counter is decremented again and the exception propagates (lines
78-84); on success the request id is incremented, a pending future is
registered under it and the message is written to the transport.
Returns the new state and, on success, the request id of the new future. -/
def _send_request (st : UASocketProtocol) (encodeResult : Option Nat)
    (timeout : Nat) : UASocketProtocol × Except SendErr Nat :=
  let st1 := (_create_request_header st timeout).1
  let hdr := (_create_request_header st timeout).2
  match encodeResult with
  | none =>
      ({ st1 with request_handle := st1.request_handle - 1 },
       Except.error SendErr.encodeFailed)
  | some binreq =>
      let rid := st1.request_id + 1
      ({ st1 with
          request_id := rid
          callbackmap := dictInsert st1.callbackmap rid FutState.pending
          sent := st1.sent ++ [SentMsg.secureMsg rid hdr binreq] },
       Except.ok rid)

/-- Exceptions arising inside `_call_callback`. -/
inductive DispatchErr
  | noFutureFound
  | invalidState
deriving DecidableEq, Repr

/-- `_call_callback(request_id, body)` (lines 129-134): pop the entry for
`request_id` (`pop(request_id, None)` leaves the dict unchanged when the key
is absent); raise `ua.UaError` when no future was found; otherwise
`future.set_result(body)` (which itself raises `InvalidStateError` unless the
future is still pending). -/
def _call_callback (st : UASocketProtocol) (request_id : Nat) (body : Nat) :
    UASocketProtocol × Except DispatchErr Unit :=
  match dictLookup st.callbackmap request_id with
  | none => (st, Except.error DispatchErr.noFutureFound)
  | some fut =>
      let st' := { st with callbackmap := dictRemove st.callbackmap request_id }
      match fut with
      | FutState.pending => (st', Except.ok ())
      | FutState.done _ => (st', Except.error DispatchErr.invalidState)
      | FutState.cancelled => (st', Except.error DispatchErr.invalidState)

/-- `send_hello` (lines 148-159), the part that touches protocol state:
registers a future under request id 0 and writes the Hello message. -/
def send_hello (st : UASocketProtocol) : UASocketProtocol :=
  { st with
      callbackmap := dictInsert st.callbackmap 0 FutState.pending
      sent := st.sent ++ [SentMsg.helloMsg] }

/-- `close_secure_channel` (lines 175-187): `_send_request` (default
`timeout=1000`), then the future is cancelled and the whole callback map is
cleared. When `_send_request` raises, the exception propagates before the
clearing happens. -/
def close_secure_channel (st : UASocketProtocol) (encodeResult : Option Nat) :
    UASocketProtocol :=
  match _send_request st encodeResult 1000 with
  | (st', Except.ok _) => { st' with callbackmap := [] }
  | (st', Except.error _) => st'

/-- How `send_request` (lines 94-104) terminates. -/
inductive SendRequestExit
  | encodeError
  | returnedFuture (request_id : Nat)
  | raisedInvalidState (request_id : Nat)
deriving DecidableEq, Repr

/-- `send_request(request, callback, timeout, message_type)` (lines 94-104):
calls `_send_request` (propagating its encode failure; the request is written
to the transport on success). When a callback was supplied, it returns with no
local wait. When no callback was supplied, line 102 evaluates
`future.result()` while building the argument of `asyncio.wait_for`; the
future was created inside `_send_request` on this same event-loop turn with no
intervening await, so it is necessarily still pending, and `result()` on a
pending future raises `asyncio.InvalidStateError` — before `asyncio.wait_for`
(and with it any local wait, with any deadline) ever runs, and before
`check_answer` can be reached. The `timeout` argument is consulted nowhere on
this path except as the header's `TimeoutHint` inside `_send_request`. -/
def send_request (st : UASocketProtocol) (encodeResult : Option Nat)
    (hasCallback : Bool) (timeout : Nat) : UASocketProtocol × SendRequestExit :=
  match _send_request st encodeResult timeout with
  | (st', Except.error _) => (st', SendRequestExit.encodeError)
  | (st', Except.ok rid) =>
      if hasCallback then (st', SendRequestExit.returnedFuture rid)
      else (st', SendRequestExit.raisedInvalidState rid)

/-- Modelled from the spec: UA service results and the error classes of
`opcua.ua.uaerrors` (outside `src/`). `good` is a good status; the three named
bad statuses are the ones the client treats specially; `badOther` stands for
any other non-good status code. -/
inductive ServiceResult
  | good
  | badTimeout
  | badNoSubscription
  | badSessionClosed
  | badOther (code : Nat)
deriving DecidableEq, Repr

/-- Modelled from the spec: `ResponseHeader.ServiceResult.check()`
(`opcua.ua`, outside `src/`) returns normally on a good service result and
raises the UA error corresponding to a non-good one. -/
def ServiceResult.check : ServiceResult → Except ServiceResult Unit
  | ServiceResult.good => Except.ok ()
  | r => Except.error r

/-- The leading type node id of a response body, as peeked by `check_answer`
(lines 106-114): either the `ServiceFault` encoding (with the service result
its response header carries) or some other type tag. -/
inductive PeekedBody
  | serviceFault (result : ServiceResult)
  | normal (typeTag : Nat)
deriving DecidableEq, Repr

/-- `check_answer(data, context)` (lines 106-114): when the leading node id is
the `ServiceFault` encoding, decode the response header and run
`ServiceResult.check()` (raising for a non-good result), returning `False`
otherwise; for any other type id return `True`. -/
def check_answer (body : PeekedBody) : Except ServiceResult Bool :=
  match body with
  | PeekedBody.serviceFault r =>
      match ServiceResult.check r with
      | Except.ok _ => Except.ok false
      | Except.error e => Except.error e
  | PeekedBody.normal _ => Except.ok true

/-- The suffix of `close_session` (lines 268-276), for a decoded
`CloseSessionResponse` carrying `result`: run
`response.ResponseHeader.ServiceResult.check()` inside
`try: ... except BadSessionClosed: pass`, so exactly the `BadSessionClosed`
error is swallowed and any other error propagates. In the frozen code this
suffix is unreachable (see `close_session` below): it records what the
`except` clause does with a decoded response. -/
def close_session_checkResult (result : ServiceResult) :
    Except ServiceResult Unit :=
  match ServiceResult.check result with
  | Except.ok _ => Except.ok ()
  | Except.error e =>
      if e = ServiceResult.badSessionClosed then Except.ok () else Except.error e

/-- How `close_session` terminates in the frozen code. -/
inductive CloseSessionExit
  | encodeError
  | raisedInvalidState
deriving DecidableEq, Repr

/-- `close_session(deletesubscriptions)` (lines 263-276) end to end: line 267
awaits `self.protocol.send_request(request)` with no callback, and
`send_request` raises `asyncio.InvalidStateError` at line 102
(`future.result()` on the still-pending future) after the request was written
to the transport but before any response can be received — so the decode at
line 268 and the `try/except BadSessionClosed` of lines 269-276
(`close_session_checkResult`) are never reached, whatever service result the
server would return. The wildcard arm also covers `returnedFuture`, which
`send_request … false …` never produces (no callback is passed here). -/
def close_session (st : UASocketProtocol) (encodeResult : Option Nat) :
    UASocketProtocol × CloseSessionExit :=
  let r := send_request st encodeResult false 1000
  match r.2 with
  | SendRequestExit.encodeError => (r.1, CloseSessionExit.encodeError)
  | _ => (r.1, CloseSessionExit.raisedInvalidState)

/-- State of `UaClient` (lines 201-208) relevant to the claims: the owned
protocol instance and `self._publishcallbacks` mapping subscription id to a
callback (callbacks as opaque `Nat` handles). -/
structure UaClientState where
  protocol : UASocketProtocol
  publishcallbacks : List (Nat × Nat)
deriving DecidableEq, Repr

/-- Lookup in the `_publishcallbacks` dict (`self._publishcallbacks[sid]`). -/
def pubCallbackLookup (m : List (Nat × Nat)) (sid : Nat) : Option Nat :=
  (m.find? (fun p => p.1 = sid)).map Prod.snd

/-- The decoded `ua.PublishResponse` as used by `_call_publish_callback`:
its `Parameters.SubscriptionId` and an opaque tag for the rest of
`Parameters` (what the subscription callback is invoked with). -/
structure PublishResponse where
  SubscriptionId : Nat
  ParametersTag : Nat
deriving DecidableEq, Repr

/-- How `_call_publish_callback` terminates: the `returned…` constructors are
its normal `return` paths, `raisedFromCheck` is an exception from
`check_answer` that is caught by neither `except` clause and escapes. -/
inductive HandlerExit
  | returnedBadTimeout
  | returnedBadNoSubscription
  | raisedFromCheck (e : ServiceResult)
  | returnedParseFailure
  | returnedUnknownSubscription
  | returnedCallbackDone
  | returnedCallbackExceptionLogged
deriving DecidableEq, Repr

/-- Result of one run of the publish completion handler: the `UaClient` state
afterwards, the acknowledgement lists of the `PublishRequest`s the handler
actually sent to the server during the run, and how it exited. -/
structure HandlerResult where
  state : UaClientState
  sentPublishRequests : List (List Nat)
  exit : HandlerExit
deriving DecidableEq, Repr

/-- `_call_publish_callback(future)` (lines 436-486), given the completed
future's body as peeked by `check_answer`, the outcome of
`struct_from_binary(ua.PublishResponse, data)` (`none` when it raises) and
whether the user callback raises.

In the `BadTimeout` branch (line 444) and the parse-failure branch (line 472)
the code calls `self.publish()` / `self.publish([])` without `await`: calling
an `async def` function only creates a coroutine object and runs none of its
body, so no `PublishRequest` is sent — hence `sentPublishRequests := []` on
every path. An exception from the user callback is caught by the
`except Exception` at line 485 and only logged. -/
def _call_publish_callback (cs : UaClientState) (body : PeekedBody)
    (parsed : Option PublishResponse) (callbackRaises : Bool) : HandlerResult :=
  match check_answer body with
  | Except.error ServiceResult.badTimeout =>
      { state := cs, sentPublishRequests := [], exit := HandlerExit.returnedBadTimeout }
  | Except.error ServiceResult.badNoSubscription =>
      { state := cs, sentPublishRequests := [],
        exit := HandlerExit.returnedBadNoSubscription }
  | Except.error e =>
      { state := cs, sentPublishRequests := [], exit := HandlerExit.raisedFromCheck e }
  | Except.ok _ =>
      match parsed with
      | none =>
          { state := cs, sentPublishRequests := [],
            exit := HandlerExit.returnedParseFailure }
      | some resp =>
          match pubCallbackLookup cs.publishcallbacks resp.SubscriptionId with
          | none =>
              { state := cs, sentPublishRequests := [],
                exit := HandlerExit.returnedUnknownSubscription }
          | some _ =>
              if callbackRaises then
                { state := cs, sentPublishRequests := [],
                  exit := HandlerExit.returnedCallbackExceptionLogged }
              else
                { state := cs, sentPublishRequests := [],
                  exit := HandlerExit.returnedCallbackDone }

/-- A Python object as seen by `struct_from_binary`: a readable binary buffer,
or a coroutine object (what calling an `async def` function without `await`
returns). -/
inductive PyObject
  | bytesBuffer (payload : Nat)
  | coroutineObject
deriving DecidableEq, Repr

/-- `struct_from_binary(objtype, data)` parses the given binary buffer;
applied to a non-buffer object such as a coroutine it raises (only the
decoded payload is modelled, as an opaque `Nat`). -/
def struct_from_binary_decode : PyObject → Except Unit Nat
  | PyObject.bytesBuffer payload => Except.ok payload
  | PyObject.coroutineObject => Except.error ()

/-- Errors surfacing from `create_session`. -/
inductive SessionErr
  | decodeFailed
  | serviceFailed (r : ServiceResult)
deriving DecidableEq, Repr

/-- `create_session(parameters)` (lines 242-251). Line 246 reads
`data = self.protocol.send_request(request)` with no `await`: calling the
coroutine function only creates a coroutine object (none of `send_request`'s
body runs, so nothing is sent) and binds that object to `data`; line 247 then
feeds `data` to `struct_from_binary`, which raises on a coroutine. The
remaining lines — `ServiceResult.check()` and the storing of
`response.Parameters.AuthenticationToken` (line 250) — are kept for
faithfulness but are unreachable. `respToken`/`respResult` are what the
response would carry if one were obtained. -/
def create_session (cs : UaClientState) (respToken : Nat)
    (respResult : ServiceResult) : UaClientState × Except SessionErr Nat :=
  let data := PyObject.coroutineObject
  match struct_from_binary_decode data with
  | Except.error _ => (cs, Except.error SessionErr.decodeFailed)
  | Except.ok _ =>
      match ServiceResult.check respResult with
      | Except.error e => (cs, Except.error (SessionErr.serviceFailed e))
      | Except.ok _ =>
          ({ cs with protocol :=
              { cs.protocol with authentication_token := respToken } },
           Except.ok respToken)

/-- One state-mutating operation on a `UASocketProtocol`, as issued by the
client code: a `_send_request` (with the outcome of its encode call and its
`timeout` argument), an inbound dispatch through `_call_callback` (from
`_receive`, lines 116-127), a `send_hello`, or a `close_secure_channel`. -/
inductive ProtoOp
  | sendRequest (encodeResult : Option Nat) (timeout : Nat)
  | dispatch (request_id : Nat) (body : Nat)
  | hello
  | closeSecure (encodeResult : Option Nat)
deriving DecidableEq, Repr

/-- Apply one operation to the protocol state (exceptions leave the state the
operation produced up to the raise, as in the source). -/
def applyOp (st : UASocketProtocol) : ProtoOp → UASocketProtocol
  | ProtoOp.sendRequest enc tm => (_send_request st enc tm).1
  | ProtoOp.dispatch rid body => (_call_callback st rid body).1
  | ProtoOp.hello => send_hello st
  | ProtoOp.closeSecure enc => close_secure_channel st enc

/-- Run a list of operations from a given state. -/
def runFrom (st : UASocketProtocol) (ops : List ProtoOp) : UASocketProtocol :=
  ops.foldl applyOp st

/-- Run a list of operations from a freshly constructed protocol. -/
def runOps (timeout : Nat) (ops : List ProtoOp) : UASocketProtocol :=
  runFrom (initProtocol timeout) ops

/-- Number of request ids an operation assigns: 1 for a `_send_request` whose
encoding succeeds (also inside `close_secure_channel`), 0 otherwise. -/
def opAssigns : ProtoOp → Nat
  | ProtoOp.sendRequest (some _) _ => 1
  | ProtoOp.closeSecure (some _) => 1
  | _ => 0

/-- Total number of successfully sent requests in a run. -/
def sumAssigns (ops : List ProtoOp) : Nat := (ops.map opAssigns).sum

/-- The request ids assigned by `_send_request` over a run, in order. -/
def collectIds (st : UASocketProtocol) : List ProtoOp → List Nat
  | [] => []
  | op :: rest =>
      (match op with
        | ProtoOp.sendRequest enc tm =>
            match (_send_request st enc tm).2 with
            | Except.ok rid => [rid]
            | Except.error _ => []
        | ProtoOp.closeSecure enc =>
            match (_send_request st enc 1000).2 with
            | Except.ok rid => [rid]
            | Except.error _ => []
        | _ => []) ++ collectIds (applyOp st op) rest

/-- The `RequestHandle` a transport-written message carries, if any. -/
def handleOfMsg : SentMsg → Option Nat
  | SentMsg.secureMsg _ hdr _ => some hdr.RequestHandle
  | SentMsg.helloMsg => none

/-- The `RequestHandle` values of all requests written to the transport,
in the order they were written. -/
def sentHandles (st : UASocketProtocol) : List Nat :=
  st.sent.filterMap handleOfMsg

/-- The invariant of the pending-request map claimed by the spec: no
duplicate request ids, and every key at most the current id counter. -/
def mapInvariant (st : UASocketProtocol) : Prop :=
  (keysOf st.callbackmap).Nodup ∧
    ∀ k ∈ keysOf st.callbackmap, k ≤ st.request_id

theorem keysOf_filterNe (m : List (Nat × FutState)) (k : Nat) :
    keysOf (m.filter (fun p => p.1 ≠ k)) = (keysOf m).filter (fun x => x ≠ k) := by
  induction m with
  | nil => rfl
  | cons p rest ih =>
      by_cases h : p.1 = k <;> simp [keysOf, List.filter_cons, h] <;>
        simpa [keysOf] using ih

theorem keysOf_dictInsert (m : List (Nat × FutState)) (k : Nat) (v : FutState) :
    keysOf (dictInsert m k v) = (keysOf m).filter (fun x => x ≠ k) ++ [k] := by
  simp [dictInsert, dictRemove, keysOf, List.map_append]
  simpa [keysOf] using keysOf_filterNe m k

theorem keysOf_dictRemove (m : List (Nat × FutState)) (k : Nat) :
    keysOf (dictRemove m k) = (keysOf m).filter (fun x => x ≠ k) :=
  keysOf_filterNe m k

theorem nodup_keysOf_dictInsert (m : List (Nat × FutState)) (k : Nat)
    (v : FutState) (h : (keysOf m).Nodup) : (keysOf (dictInsert m k v)).Nodup := by
  rw [keysOf_dictInsert]
  refine List.Nodup.append (h.filter _) (List.nodup_singleton k) ?_
  intro x hx hx'
  rcases List.mem_filter.mp hx with ⟨-, hne⟩
  simp at hx'
  subst hx'
  simp at hne

theorem mem_keysOf_dictInsert {m : List (Nat × FutState)} {k x : Nat}
    {v : FutState} (h : x ∈ keysOf (dictInsert m k v)) : x ∈ keysOf m ∨ x = k := by
  rw [keysOf_dictInsert] at h
  rcases List.mem_append.mp h with h | h
  · exact Or.inl (List.mem_filter.mp h).1
  · simp at h; exact Or.inr h

theorem dictLookup_dictInsert (m : List (Nat × FutState)) (k : Nat)
    (v : FutState) : dictLookup (dictInsert m k v) k = some v := by
  induction m with
  | nil => simp [dictLookup, dictInsert, dictRemove, List.find?]
  | cons p rest ih =>
      by_cases h : p.1 = k
      · simpa [dictInsert, dictRemove, List.filter_cons, h] using ih
      · simpa [dictLookup, dictInsert, dictRemove, List.filter_cons, List.find?, h]
          using ih

theorem send_request_none_eq (st : UASocketProtocol) (tm : Nat) :
    _send_request st none tm = (st, Except.error SendErr.encodeFailed) := rfl

theorem send_request_some_eq (st : UASocketProtocol) (b tm : Nat) :
    _send_request st (some b) tm =
      ({ st with
          request_handle := st.request_handle + 1
          request_id := st.request_id + 1
          callbackmap := dictInsert st.callbackmap (st.request_id + 1) FutState.pending
          sent := st.sent ++ [SentMsg.secureMsg (st.request_id + 1)
            { AuthenticationToken := st.authentication_token
              RequestHandle := st.request_handle + 1
              TimeoutHint := tm } b] },
       Except.ok (st.request_id + 1)) := rfl

theorem send_request_some_noCallback_eq (st : UASocketProtocol) (b tm : Nat) :
    send_request st (some b) false tm =
      ((_send_request st (some b) tm).1,
        SendRequestExit.raisedInvalidState (st.request_id + 1)) := by
  unfold send_request
  rw [send_request_some_eq]
  rfl

theorem send_request_some_withCallback_eq (st : UASocketProtocol) (b tm : Nat) :
    send_request st (some b) true tm =
      ((_send_request st (some b) tm).1,
        SendRequestExit.returnedFuture (st.request_id + 1)) := by
  unfold send_request
  rw [send_request_some_eq]
  rfl

theorem call_callback_fields (st : UASocketProtocol) (rid body : Nat) :
    ((_call_callback st rid body).1.request_id = st.request_id ∧
     (_call_callback st rid body).1.request_handle = st.request_handle ∧
     (_call_callback st rid body).1.sent = st.sent) ∧
    ((_call_callback st rid body).1.callbackmap = st.callbackmap ∨
     (_call_callback st rid body).1.callbackmap = dictRemove st.callbackmap rid) := by
  unfold _call_callback
  cases h : dictLookup st.callbackmap rid with
  | none => exact ⟨⟨rfl, rfl, rfl⟩, Or.inl rfl⟩
  | some fut => cases fut <;> exact ⟨⟨rfl, rfl, rfl⟩, Or.inr rfl⟩

theorem sentHandles_append_secure (st : UASocketProtocol) (rid b : Nat)
    (hdr : RequestHeader) :
    sentHandles { st with sent := st.sent ++ [SentMsg.secureMsg rid hdr b] } =
      sentHandles st ++ [hdr.RequestHandle] := by
  simp [sentHandles, List.filterMap_append, handleOfMsg]


theorem applyOp_request_id (st : UASocketProtocol) (op : ProtoOp) :
    (applyOp st op).request_id = st.request_id + opAssigns op := by
  cases op with
  | sendRequest enc tm =>
      cases enc with
      | none => simp [applyOp, send_request_none_eq, opAssigns]
      | some b => simp [applyOp, send_request_some_eq, opAssigns]
  | dispatch rid body =>
      simpa [applyOp, opAssigns] using (call_callback_fields st rid body).1.1
  | hello => simp [applyOp, send_hello, opAssigns]
  | closeSecure enc =>
      cases enc with
      | none => simp [applyOp, close_secure_channel, send_request_none_eq, opAssigns]
      | some b =>
          simp [applyOp, close_secure_channel, send_request_some_eq, opAssigns]

theorem applyOp_request_handle (st : UASocketProtocol) (op : ProtoOp) :
    (applyOp st op).request_handle = st.request_handle + opAssigns op := by
  cases op with
  | sendRequest enc tm =>
      cases enc with
      | none => simp [applyOp, send_request_none_eq, opAssigns]
      | some b => simp [applyOp, send_request_some_eq, opAssigns]
  | dispatch rid body =>
      simpa [applyOp, opAssigns] using (call_callback_fields st rid body).1.2.1
  | hello => simp [applyOp, send_hello, opAssigns]
  | closeSecure enc =>
      cases enc with
      | none => simp [applyOp, close_secure_channel, send_request_none_eq, opAssigns]
      | some b =>
          simp [applyOp, close_secure_channel, send_request_some_eq, opAssigns]

theorem applyOp_sentHandles (st : UASocketProtocol) (op : ProtoOp) :
    sentHandles (applyOp st op) =
      sentHandles st ++ List.range' (st.request_handle + 1) (opAssigns op) := by
  cases op with
  | sendRequest enc tm =>
      cases enc with
      | none => simp [applyOp, send_request_none_eq, opAssigns]
      | some b =>
          rw [show applyOp st (ProtoOp.sendRequest (some b) tm) =
              (_send_request st (some b) tm).1 from rfl, send_request_some_eq]
          simpa [opAssigns, List.range'] using
            sentHandles_append_secure { st with request_handle := st.request_handle + 1 }
              (st.request_id + 1) b
              { AuthenticationToken := st.authentication_token
                RequestHandle := st.request_handle + 1
                TimeoutHint := tm }
  | dispatch rid body =>
      have h := (call_callback_fields st rid body).1.2.2
      simp [applyOp, opAssigns, sentHandles, h]
  | hello =>
      simp [applyOp, send_hello, opAssigns, sentHandles, List.filterMap_append,
        handleOfMsg]
  | closeSecure enc =>
      cases enc with
      | none => simp [applyOp, close_secure_channel, send_request_none_eq, opAssigns]
      | some b =>
          have h1 : applyOp st (ProtoOp.closeSecure (some b)) =
              { (_send_request st (some b) 1000).1 with callbackmap := [] } := by
            simp [applyOp, close_secure_channel, send_request_some_eq]
          have h2 : sentHandles { (_send_request st (some b) 1000).1 with callbackmap := [] } =
              sentHandles (_send_request st (some b) 1000).1 := rfl
          rw [h1, h2, send_request_some_eq]
          simpa [opAssigns, List.range'] using
            sentHandles_append_secure { st with request_handle := st.request_handle + 1 }
              (st.request_id + 1) b
              { AuthenticationToken := st.authentication_token
                RequestHandle := st.request_handle + 1
                TimeoutHint := 1000 }

theorem collectIds_cons (st : UASocketProtocol) (op : ProtoOp) (rest : List ProtoOp) :
    collectIds st (op :: rest) =
      List.range' (st.request_id + 1) (opAssigns op) ++ collectIds (applyOp st op) rest := by
  cases op with
  | sendRequest enc tm =>
      cases enc with
      | none => simp [collectIds, send_request_none_eq, opAssigns]
      | some b => simp [collectIds, send_request_some_eq, opAssigns, List.range']
  | dispatch rid body => simp [collectIds, opAssigns]
  | hello => simp [collectIds, opAssigns]
  | closeSecure enc =>
      cases enc with
      | none => simp [collectIds, send_request_none_eq, opAssigns]
      | some b => simp [collectIds, send_request_some_eq, opAssigns, List.range']

theorem runFrom_request_id (ops : List ProtoOp) : ∀ st : UASocketProtocol,
    (runFrom st ops).request_id = st.request_id + sumAssigns ops := by
  induction ops with
  | nil => intro st; simp [runFrom, sumAssigns]
  | cons op rest ih =>
      intro st
      have h : runFrom st (op :: rest) = runFrom (applyOp st op) rest := rfl
      rw [h, ih, applyOp_request_id]
      simp [sumAssigns]
      omega

theorem runFrom_request_handle (ops : List ProtoOp) : ∀ st : UASocketProtocol,
    (runFrom st ops).request_handle = st.request_handle + sumAssigns ops := by
  induction ops with
  | nil => intro st; simp [runFrom, sumAssigns]
  | cons op rest ih =>
      intro st
      have h : runFrom st (op :: rest) = runFrom (applyOp st op) rest := rfl
      rw [h, ih, applyOp_request_handle]
      simp [sumAssigns]
      omega

theorem collectIds_range' (ops : List ProtoOp) : ∀ st : UASocketProtocol,
    collectIds st ops = List.range' (st.request_id + 1) (sumAssigns ops) := by
  induction ops with
  | nil => intro st; simp [collectIds, sumAssigns]
  | cons op rest ih =>
      intro st
      rw [collectIds_cons, ih, applyOp_request_id]
      have h := List.range'_append (st.request_id + 1) (opAssigns op) (sumAssigns rest) 1
      simp only [one_mul, List.range'_one] at h
      have h2 : st.request_id + opAssigns op + 1 =
          st.request_id + 1 + 1 * opAssigns op := by omega
      rw [h2, List.range'_append]
      simp [sumAssigns]
      omega

theorem runFrom_sentHandles (ops : List ProtoOp) : ∀ st : UASocketProtocol,
    sentHandles (runFrom st ops) =
      sentHandles st ++ List.range' (st.request_handle + 1) (sumAssigns ops) := by
  induction ops with
  | nil => intro st; simp [runFrom, sumAssigns]
  | cons op rest ih =>
      intro st
      have h : runFrom st (op :: rest) = runFrom (applyOp st op) rest := rfl
      rw [h, ih, applyOp_sentHandles, applyOp_request_handle, List.append_assoc]
      have h2 : st.request_handle + opAssigns op + 1 =
          st.request_handle + 1 + 1 * opAssigns op := by omega
      rw [h2, List.range'_append]
      simp [sumAssigns]
      omega

theorem mapInvariant_dictRemove (st : UASocketProtocol) (k : Nat)
    (h : mapInvariant st) :
    (keysOf (dictRemove st.callbackmap k)).Nodup ∧
      ∀ x ∈ keysOf (dictRemove st.callbackmap k), x ≤ st.request_id := by
  rw [keysOf_dictRemove]
  exact ⟨h.1.filter _, fun x hx => h.2 x (List.mem_filter.mp hx).1⟩

theorem mapInvariant_applyOp (st : UASocketProtocol) (op : ProtoOp)
    (h : mapInvariant st) : mapInvariant (applyOp st op) := by
  cases op with
  | sendRequest enc tm =>
      cases enc with
      | none => simpa [applyOp, send_request_none_eq] using h
      | some b =>
          rw [show applyOp st (ProtoOp.sendRequest (some b) tm) =
              (_send_request st (some b) tm).1 from rfl, send_request_some_eq]
          constructor
          · exact nodup_keysOf_dictInsert _ _ _ h.1
          · intro k hk
            show k ≤ st.request_id + 1
            rcases mem_keysOf_dictInsert hk with hk | hk
            · exact Nat.le_succ_of_le (h.2 k hk)
            · omega
  | dispatch rid body =>
      have ha : applyOp st (ProtoOp.dispatch rid body) =
          (_call_callback st rid body).1 := rfl
      rw [ha]
      have hid := (call_callback_fields st rid body).1.1
      rcases (call_callback_fields st rid body).2 with hm | hm
      · constructor
        · rw [hm]; exact h.1
        · intro k hk; rw [hm] at hk; rw [hid]; exact h.2 k hk
      · have hrem := mapInvariant_dictRemove st rid h
        constructor
        · rw [hm]; exact hrem.1
        · intro k hk; rw [hm] at hk; rw [hid]; exact hrem.2 k hk
  | hello =>
      constructor
      · exact nodup_keysOf_dictInsert _ _ _ h.1
      · intro k hk
        rcases mem_keysOf_dictInsert hk with hk | hk
        · exact h.2 k hk
        · simp [send_hello, hk]
  | closeSecure enc =>
      cases enc with
      | none => simpa [applyOp, close_secure_channel, send_request_none_eq] using h
      | some b =>
          have h1 : applyOp st (ProtoOp.closeSecure (some b)) =
              { (_send_request st (some b) 1000).1 with callbackmap := [] } := by
            simp [applyOp, close_secure_channel, send_request_some_eq]
          rw [h1]
          exact ⟨List.nodup_nil, by intro k hk; simp [keysOf] at hk⟩

theorem mapInvariant_runFrom (ops : List ProtoOp) : ∀ st : UASocketProtocol,
    mapInvariant st → mapInvariant (runFrom st ops) := by
  induction ops with
  | nil => intro st h; simpa [runFrom] using h
  | cons op rest ih =>
      intro st h
      exact ih (applyOp st op) (mapInvariant_applyOp st op h)

theorem pairwise_lt_range' (n : Nat) : ∀ s : Nat,
    List.Pairwise (· < ·) (List.range' s n) := by
  induction n with
  | zero => intro s; simp
  | succ m ih =>
      intro s
      rw [List.range'_succ]
      refine List.Pairwise.cons ?_ (ih (s + 1))
      intro x hx
      have := (List.mem_range'_1.mp hx).1
      omega

/-- Modelled from the spec: the `ua.AttributeIds` constants (`opcua.ua`,
outside `src/`); only the `NodeClass` and `ValueRank` tags are compared
against in `read()` (lines 307-315), all remaining attribute ids are
`otherAttr`. -/
inductive AttributeId
  | nodeClassAttr
  | valueRankAttr
  | otherAttr (n : Nat)
deriving DecidableEq, Repr

/-- A `Variant` value inside a read result: the raw integer delivered by the
server, or that integer wrapped as a member of the `NodeClass` / `ValueRank`
enumeration (modelled from the spec: `ua.NodeClass(x)` and `ua.ValueRank(x)`
of `opcua.ua`, outside `src/`, coerce an integer to the enumeration). -/
inductive UaValue
  | intVal (v : Int)
  | nodeClassEnum (v : Int)
  | valueRankEnum (v : Int)
deriving DecidableEq, Repr

/-- A `ua.DataValue` inside `response.Results`, restricted to what the read
post-processing touches: `dv.StatusCode.is_good()` and `dv.Value.Value`. -/
structure DataValue where
  statusGood : Bool
  value : UaValue
deriving DecidableEq, Repr

/-- A `ua.ReadValueId` inside `parameters.NodesToRead`, restricted to its
`AttributeId`. -/
structure ReadValueId where
  attributeId : AttributeId
deriving DecidableEq, Repr

/-- `dv.Value.Value in (-3, -2, -1, 0, 1, 2, 3, 4)` (line 314). -/
def inValueRankRange : UaValue → Bool
  | UaValue.intVal v =>
      v == -3 || v == -2 || v == -1 || v == 0 || v == 1 || v == 2 || v == 3 || v == 4
  | _ => false

/-- `ua.NodeClass(dv.Value.Value)` (line 311). -/
def toNodeClassEnum : UaValue → UaValue
  | UaValue.intVal v => UaValue.nodeClassEnum v
  | x => x

/-- `ua.ValueRank(dv.Value.Value)` (line 315). -/
def toValueRankEnum : UaValue → UaValue
  | UaValue.intVal v => UaValue.valueRankEnum v
  | x => x

/-- One iteration of the post-processing loop of `read` (lines 307-315) for
the requested node `rv` and its result `dv`: when the requested attribute is
`NodeClass` and the status is good, coerce the value to the `NodeClass`
enumeration; when it is `ValueRank` and the status is good and the value lies
in `(-3, -2, -1, 0, 1, 2, 3, 4)`, coerce to the `ValueRank` enumeration;
otherwise leave the result untouched. -/
def coerceReadValue (rv : ReadValueId) (dv : DataValue) : DataValue :=
  match rv.attributeId with
  | AttributeId.nodeClassAttr =>
      if dv.statusGood then { dv with value := toNodeClassEnum dv.value } else dv
  | AttributeId.valueRankAttr =>
      if dv.statusGood && inValueRankRange dv.value then
        { dv with value := toValueRankEnum dv.value }
      else dv
  | AttributeId.otherAttr _ => dv

/-- The whole post-processing loop of `read` (lines 306-316): element `idx` of
`response.Results` is rewritten according to `parameters.NodesToRead[idx]`;
results beyond the requested nodes are left untouched (the Python loop runs
over the indices of `NodesToRead`; it presumes at least one result per
requested node). -/
def read_postprocess : List ReadValueId → List DataValue → List DataValue
  | [], results => results
  | _ :: _, [] => []
  | rv :: rvs, dv :: dvs => coerceReadValue rv dv :: read_postprocess rvs dvs

/-- How `read` terminates in the frozen code. -/
inductive ReadExit
  | encodeError
  | raisedInvalidState
deriving DecidableEq, Repr

/-- `read(parameters)` (lines 298-316) end to end: line 302 awaits
`self.protocol.send_request(request)` with no callback, and `send_request`
raises `asyncio.InvalidStateError` at line 102 (`future.result()` on the
still-pending future) after the `ReadRequest` was written to the transport
but before any response can be received — so `read` always raises before any
`ReadResponse` is decoded, the post-processing loop of lines 306-316
(`read_postprocess`) is never reached, and no result list is ever returned.
The wildcard arm also covers `returnedFuture`, which `send_request … false …`
never produces (no callback is passed here). `nodes` is
`parameters.NodesToRead`; it does not influence the outcome. -/
def UaClient.read (st : UASocketProtocol) (encodeResult : Option Nat)
    (nodes : List ReadValueId) : UASocketProtocol × ReadExit :=
  let r := send_request st encodeResult false 1000
  match r.2 with
  | SendRequestExit.encodeError => (r.1, ReadExit.encodeError)
  | _ => (r.1, ReadExit.raisedInvalidState)

theorem read_postprocess_get? (rvs : List ReadValueId) :
    ∀ (dvs : List DataValue) (i : Nat) (rv : ReadValueId) (dv : DataValue),
      rvs.get? i = some rv → dvs.get? i = some dv →
      (read_postprocess rvs dvs).get? i = some (coerceReadValue rv dv) := by
  induction rvs with
  | nil => intro dvs i rv dv h1 _; simp at h1
  | cons r rs ih =>
      intro dvs i rv dv h1 h2
      cases dvs with
      | nil => simp at h2
      | cons d ds =>
          cases i with
          | zero =>
              simp at h1 h2
              subst h1; subst h2
              rfl
          | succ j =>
              simp only [List.get?_cons_succ] at h1 h2
              simpa [read_postprocess] using ih ds j rv dv h1 h2

/-- C1, counterexample. The claim says a callback-less `send_request` applies
a local wait with deadline `timeout_ms` — completing the sink with `Timeout`
and removing the pending entry when no response arrives in time — and that
`timeout_ms = 0` means no local timeout. On a fresh protocol, a callback-less
`send_request` with `timeout_ms = 5000` raises `InvalidStateError`
immediately: no wait with deadline 5000 (or any other) takes place, the sink
is never completed with `Timeout`, and the pending entry stays registered;
and with `timeout_ms = 0` the call terminates the same way, so 0 is not a
distinguished no-timeout marker. -/
theorem C1_counterexample :
    (send_request (initProtocol 1) (some 7) false 5000).2 =
      SendRequestExit.raisedInvalidState 1 ∧
    (send_request (initProtocol 1) (some 7) false 0).2 =
      SendRequestExit.raisedInvalidState 1 ∧
    dictLookup (send_request (initProtocol 1) (some 7) false 5000).1.callbackmap 1 =
      some FutState.pending := by
  refine ⟨rfl, rfl, rfl⟩

/-- C1 (amended): a request submitted via `send_request` without a callback
never has a local wait applied at all: after `_send_request` succeeds (the
request is written to the transport and a pending future registered),
line 102 evaluates `future.result()` on that still-pending future and raises
`asyncio.InvalidStateError` before `asyncio.wait_for` runs — whatever
`timeout_ms` was passed, 0 included — so the sink never completes with
`Timeout` and the pending entry remains in the map. `timeout_ms` only reaches
the wire as the header's `TimeoutHint`. When a callback is supplied (the
Publish path), `send_request` returns the future, likewise without any local
wait. -/
theorem C1_no_local_wait_invalid_state (st : UASocketProtocol) (b tm : Nat) :
    (send_request st (some b) false tm).2 =
      SendRequestExit.raisedInvalidState (st.request_id + 1) ∧
    dictLookup (send_request st (some b) false tm).1.callbackmap
        (st.request_id + 1) = some FutState.pending ∧
    (send_request st (some b) true tm).2 =
      SendRequestExit.returnedFuture (st.request_id + 1) ∧
    (_create_request_header st tm).2.TimeoutHint = tm := by
  refine ⟨?_, ?_, ?_, rfl⟩
  · rw [send_request_some_noCallback_eq]
  · rw [send_request_some_noCallback_eq, send_request_some_eq]
    exact dictLookup_dictInsert _ _ _
  · rw [send_request_some_withCallback_eq]

/-- C2, counterexample. The claim says a dispatch whose `request_id` has no
pending entry "returns without raising"; on an empty pending map,
`_call_callback 5` raises `ua.UaError` instead of returning normally. -/
theorem C2_counterexample :
    (_call_callback (initProtocol 1) 5 99).2 ≠ Except.ok () := by
  have h : (_call_callback (initProtocol 1) 5 99).2 =
      Except.error DispatchErr.noFutureFound := rfl
  rw [h]
  exact fun hc => Except.noConfusion hc

/-- C2 (amended): an inbound dispatch of `(request_id, body)` with no matching
entry in the pending-request map raises `ua.UaError` (line 132) rather than
returning normally; the pending map and the rest of the protocol state are
left unchanged, so the violation is non-fatal to the connection (the
exception only escapes into the receive task, where the event loop logs it). -/
theorem C2_unmatched_dispatch_raises (st : UASocketProtocol) (rid body : Nat)
    (h : dictLookup st.callbackmap rid = none) :
    _call_callback st rid body = (st, Except.error DispatchErr.noFutureFound) := by
  unfold _call_callback
  rw [h]

theorem C2_unmatched_dispatch_raises_witness :
    dictLookup (initProtocol 1).callbackmap 5 = none ∧
    _call_callback (initProtocol 1) 5 99 =
      (initProtocol 1, Except.error DispatchErr.noFutureFound) :=
  ⟨rfl, C2_unmatched_dispatch_raises (initProtocol 1) 5 99 rfl⟩

/-- C3, code bug. When `check_answer` raises `BadTimeout`, the handler's
`except BadTimeout` branch (lines 443-445) executes `self.publish()` without
`await`: the coroutine object is created and dropped, none of `publish`'s
body runs, and so no `PublishRequest` is actually sent before the handler
returns — contrary to the claim (and the spec's intent) that a new
`PublishRequest` with an empty acknowledgement list is sent. -/
theorem C3_badTimeout_sends_no_publish (cs : UaClientState)
    (parsed : Option PublishResponse) (cb : Bool) :
    _call_publish_callback cs (PeekedBody.serviceFault ServiceResult.badTimeout)
        parsed cb =
      { state := cs, sentPublishRequests := [],
        exit := HandlerExit.returnedBadTimeout } := rfl

/-- C5, code bug. `create_session` calls `self.protocol.send_request(request)`
without `await` (line 246): no request is sent, `struct_from_binary` is handed
the coroutine object and raises, and the token-storing line 250 is never
reached — `create_session` can never succeed, so no successful call stores the
`AuthenticationToken`. The header-side plumbing the claim also mentions is
correct: every header built by `_create_request_header` carries the token
currently stored in the protocol state (line 138). -/
theorem C5_create_session_never_stores_token (cs : UaClientState) (tok : Nat)
    (r : ServiceResult) :
    create_session cs tok r = (cs, Except.error SessionErr.decodeFailed) ∧
    (∀ (st : UASocketProtocol) (tm : Nat),
      (_create_request_header st tm).2.AuthenticationToken =
        st.authentication_token) :=
  ⟨rfl, fun _ _ => rfl⟩

/-- C6: over any sequence of protocol operations started from a fresh
`UASocketProtocol`, the request ids assigned by `_send_request` are exactly
`1, 2, …, k` (a strictly increasing sequence starting at 1), and the
pending-request map of the resulting state has no duplicate request ids with
every key at most the current `_request_id` counter. -/
theorem C6_request_id_monotone_and_map_invariant (t : Nat) (ops : List ProtoOp) :
    collectIds (initProtocol t) ops = List.range' 1 (sumAssigns ops) ∧
    List.Pairwise (· < ·) (collectIds (initProtocol t) ops) ∧
    mapInvariant (runOps t ops) := by
  refine ⟨?_, ?_, ?_⟩
  · simpa [initProtocol] using collectIds_range' ops (initProtocol t)
  · rw [collectIds_range' ops (initProtocol t)]
    exact pairwise_lt_range' (sumAssigns ops) _
  · exact mapInvariant_runFrom ops (initProtocol t)
      ⟨List.nodup_nil, by intro k hk; simp [initProtocol, keysOf] at hk⟩

/-- C7: when `struct_to_binary` fails inside `_send_request`, the
request-handle counter is rolled back to its previous value before the error
propagates, and consequently the `RequestHandle` values carried by the
requests successfully written to the transport over any run are the gap-free
consecutive sequence `1, 2, …, k`. -/
theorem C7_handle_rollback_and_gapfree (t : Nat) (ops : List ProtoOp)
    (st : UASocketProtocol) (tm : Nat) :
    (_send_request st none tm).1.request_handle = st.request_handle ∧
    (_send_request st none tm).2 = Except.error SendErr.encodeFailed ∧
    sentHandles (runOps t ops) = List.range' 1 (sumAssigns ops) := by
  refine ⟨rfl, rfl, ?_⟩
  simpa [initProtocol, sentHandles] using runFrom_sentHandles ops (initProtocol t)

/-- C8: when the publish completion handler reaches the user callback of a
registered subscription and that callback raises, the exception is caught by
the `except Exception` at line 485 (only logged): the handler exits normally
and the client state — pending map, subscription callback map, protocol
state — is exactly what it was before. -/
theorem C8_callback_exception_contained (cs : UaClientState) (body : PeekedBody)
    (resp : PublishResponse) (cb : Nat)
    (hbody : check_answer body = Except.ok true)
    (hcb : pubCallbackLookup cs.publishcallbacks resp.SubscriptionId = some cb) :
    _call_publish_callback cs body (some resp) true =
      { state := cs, sentPublishRequests := [],
        exit := HandlerExit.returnedCallbackExceptionLogged } := by
  unfold _call_publish_callback
  rw [hbody]
  simp [hcb]

theorem C8_callback_exception_contained_witness :
    check_answer (PeekedBody.normal 0) = Except.ok true ∧
    pubCallbackLookup
      (UaClientState.mk (initProtocol 1) [(4, 9)]).publishcallbacks 4 = some 9 ∧
    _call_publish_callback (UaClientState.mk (initProtocol 1) [(4, 9)])
        (PeekedBody.normal 0) (some (PublishResponse.mk 4 0)) true =
      { state := UaClientState.mk (initProtocol 1) [(4, 9)],
        sentPublishRequests := [],
        exit := HandlerExit.returnedCallbackExceptionLogged } :=
  ⟨rfl, rfl,
    C8_callback_exception_contained (UaClientState.mk (initProtocol 1) [(4, 9)])
      (PeekedBody.normal 0) (PublishResponse.mk 4 0) 9 rfl rfl⟩

/-- C9, code bug. `close_session` never returns normally: line 267 awaits the
callback-less `send_request`, which raises `asyncio.InvalidStateError` at
line 102 (`future.result()` on the still-pending future) on every call whose
encoding succeeds, before any `CloseSessionResponse` can be decoded — for a
`BadSessionClosed` service result as for any other. The tolerance the claim
describes is present in the code but unreachable: the
`try/except BadSessionClosed` suffix of lines 269-276
(`close_session_checkResult`) would swallow exactly `BadSessionClosed` (and a
good result passes), while `badTimeout`, `badNoSubscription` and every
`badOther` code would propagate. -/
theorem C9_close_session_raises_before_tolerance (st : UASocketProtocol)
    (b c : Nat) :
    (close_session st (some b)).2 = CloseSessionExit.raisedInvalidState ∧
    close_session_checkResult ServiceResult.badSessionClosed = Except.ok () ∧
    close_session_checkResult ServiceResult.good = Except.ok () ∧
    close_session_checkResult ServiceResult.badTimeout =
      Except.error ServiceResult.badTimeout ∧
    close_session_checkResult ServiceResult.badNoSubscription =
      Except.error ServiceResult.badNoSubscription ∧
    close_session_checkResult (ServiceResult.badOther c) =
      Except.error (ServiceResult.badOther c) := by
  refine ⟨?_, rfl, rfl, rfl, rfl, ?_⟩
  · unfold close_session
    rw [send_request_some_noCallback_eq]
  · simp [close_session_checkResult, ServiceResult.check]

/-- C10: a `_send_request` whose request encoding fails leaves the protocol
state exactly as it was (the handle increment of `_create_request_header` is
rolled back, the request-id counter is untouched, no pending entry is added
and nothing is written to the transport) and surfaces the encode error. -/
theorem C10_encode_failure_atomic (st : UASocketProtocol) (tm : Nat) :
    _send_request st none tm = (st, Except.error SendErr.encodeFailed) := rfl

/-- C4, counterexample. Two independent refutations of the claim as stated.
First, the claim's "exactly when" omits the good-status guards of lines 310
and 314: the post-processing loop leaves a `ValueRank` result with value `-1`
and a non-good status as a plain integer, where the claim demands the enum
member. Second, the claim's concrete scenario — a `Read` of
`{NodeClass, ValueRank}` yielding enum members — cannot occur at all: `read`
raises `InvalidStateError` (line 302 → line 102) on every call whose encoding
succeeds, before any response is processed, so no `Read` call ever yields
results. -/
theorem C4_counterexample :
    read_postprocess [ReadValueId.mk AttributeId.valueRankAttr]
        [DataValue.mk false (UaValue.intVal (-1))] =
      [DataValue.mk false (UaValue.intVal (-1))] ∧
    DataValue.mk false (UaValue.intVal (-1)) ≠
      DataValue.mk false (UaValue.valueRankEnum (-1)) ∧
    (UaClient.read (initProtocol 1) (some 7)
        [ReadValueId.mk AttributeId.nodeClassAttr,
         ReadValueId.mk AttributeId.valueRankAttr]).2 =
      ReadExit.raisedInvalidState := by
  refine ⟨rfl, by decide, rfl⟩

/-- C4 (amended): in the frozen code no `Read` call ever yields results —
`read` raises `InvalidStateError` via line 302 → line 102 on every call whose
encoding succeeds, before any `ReadResponse` is decoded. The post-processing
loop itself (lines 306-316), applied to a node list and a result list, treats
every index `i` of the requested `NodesToRead` (with a result present at `i`)
as follows: if the requested attribute is `NodeClass`, the result value is
coerced to the `NodeClass` enumeration exactly when the result's status code
is good; if it is `ValueRank`, it is coerced to the `ValueRank` enumeration
exactly when the status code is good and the value lies in
`{-3,-2,-1,0,1,2,3,4}`, and is left untouched otherwise. On the loop,
good-status integers `1` and `-1` for attributes `{NodeClass, ValueRank}`
yield the enum members `NodeClass(1)` and `ValueRank(-1)`. -/
theorem C4_read_enum_coercion (rvs : List ReadValueId) (dvs : List DataValue)
    (i : Nat) (rv : ReadValueId) (dv : DataValue) (v : Int)
    (h1 : rvs.get? i = some rv) (h2 : dvs.get? i = some dv)
    (hv : dv.value = UaValue.intVal v) :
    (∀ (st : UASocketProtocol) (b : Nat) (nodes : List ReadValueId),
      (UaClient.read st (some b) nodes).2 = ReadExit.raisedInvalidState) ∧
    (rv.attributeId = AttributeId.nodeClassAttr →
      (read_postprocess rvs dvs).get? i =
        some (if dv.statusGood then
                DataValue.mk dv.statusGood (UaValue.nodeClassEnum v)
              else dv)) ∧
    (rv.attributeId = AttributeId.valueRankAttr →
      (read_postprocess rvs dvs).get? i =
        some (if dv.statusGood && inValueRankRange dv.value then
                DataValue.mk dv.statusGood (UaValue.valueRankEnum v)
              else dv)) ∧
    read_postprocess
        [ReadValueId.mk AttributeId.nodeClassAttr,
         ReadValueId.mk AttributeId.valueRankAttr]
        [DataValue.mk true (UaValue.intVal 1),
         DataValue.mk true (UaValue.intVal (-1))] =
      [DataValue.mk true (UaValue.nodeClassEnum 1),
       DataValue.mk true (UaValue.valueRankEnum (-1))] := by
  refine ⟨?_, ?_, ?_, by decide⟩
  · intro st b nodes
    unfold UaClient.read
    rw [send_request_some_noCallback_eq]
  · intro hattr
    rw [read_postprocess_get? rvs dvs i rv dv h1 h2]
    cases dv with
    | mk sg val =>
        simp only at hv
        subst hv
        cases sg <;> simp [coerceReadValue, hattr, toNodeClassEnum]
  · intro hattr
    rw [read_postprocess_get? rvs dvs i rv dv h1 h2]
    cases dv with
    | mk sg val =>
        simp only at hv
        subst hv
        cases sg <;>
          cases hr : inValueRankRange (UaValue.intVal v) <;>
            simp [coerceReadValue, hattr, toValueRankEnum, hr]

theorem C4_read_enum_coercion_witness :
    ([ReadValueId.mk AttributeId.nodeClassAttr].get? 0 =
      some (ReadValueId.mk AttributeId.nodeClassAttr)) ∧
    ([DataValue.mk true (UaValue.intVal 1)].get? 0 =
      some (DataValue.mk true (UaValue.intVal 1))) ∧
    (DataValue.mk true (UaValue.intVal 1)).value = UaValue.intVal 1 ∧
    ((ReadValueId.mk AttributeId.nodeClassAttr).attributeId =
        AttributeId.nodeClassAttr →
      (read_postprocess [ReadValueId.mk AttributeId.nodeClassAttr]
          [DataValue.mk true (UaValue.intVal 1)]).get? 0 =
        some (if (DataValue.mk true (UaValue.intVal 1)).statusGood then
                DataValue.mk true (UaValue.nodeClassEnum 1)
              else DataValue.mk true (UaValue.intVal 1))) :=
  ⟨rfl, rfl, rfl,
    (C4_read_enum_coercion [ReadValueId.mk AttributeId.nodeClassAttr]
      [DataValue.mk true (UaValue.intVal 1)] 0
      (ReadValueId.mk AttributeId.nodeClassAttr)
      (DataValue.mk true (UaValue.intVal 1)) 1 rfl rfl rfl).2.1⟩
